import Mathlib

/-!
Verification of the omniTAK-mobile core against its specification.

Shallow embedding of the core string/byte-level routines of the
omniTAK-mobile repository:

* `omnitak-cot/src/lib.rs` — CoT XML emission (`to_xml`) and the
  substring-search based parser (`from_xml`, `extract_attribute`,
  `extract_point_attribute`, `extract_detail`).
* `omnitak-meshtastic/src/lib.rs` — the radio framing layer
  (`extract_frame`, `encode_frame`), payload chunking (`chunk_payload`)
  and the incoming-packet handler (`handle_from_radio`).
* `omnitak-server/src/client.rs` — the stream splitter
  (`extract_complete_message`).
* `omnitak-server/src/router.rs` — message fan-out (`route_message`).
* `omnitak-server/src/config.rs` — configuration validation (`validate`).

Strings are modelled as `List Char` (Rust `str::find` returns byte
indices; all search patterns are ASCII so byte positions and char
positions coincide on the slices the code takes).  Bytes are modelled
as `Nat`.  External libraries (chrono time formatting, float `Display`,
prost protobuf encode/decode) are not part of the repository; they are
abstracted as function parameters, with their documented properties
(e.g. parse-inverts-format) taken as hypotheses where a theorem needs
them.
-/

/-! ## Generic substring search (model of Rust `str::find`) -/

/-- `IsPref p s` : `p` is a prefix of `s`. -/
def IsPref (p s : List Char) : Prop := ∃ t, s = p ++ t

/-- First index at which the pattern `p` occurs in `s`; models Rust
`str::find` (which returns the first match position, `Some 0` for the
empty pattern). -/
def findSub (p : List Char) : List Char → Option Nat
  | [] => if p.isEmpty then some 0 else none
  | c :: t => if p.isPrefixOf (c :: t) then some 0 else (findSub p t).map (· + 1)

/-- `NoMatchIn p l r` : the pattern `p` does not occur starting at any
position of `l` within the string `l ++ r` (occurrences may straddle
into `r`). -/
def NoMatchIn (p l r : List Char) : Prop :=
  ∀ l1 l2, l = l1 ++ l2 → l2 ≠ [] → ¬ IsPref p (l2 ++ r)

/-- Decidable sufficient condition for `NoMatchIn p l r` independent of
`r`: no nonempty suffix of `l` is a prefix of `p`, and `p` is a prefix
of no suffix of `l`. -/
def scanOKb (p l : List Char) : Bool :=
  l.tails.all fun l2 => l2.isEmpty || (!(l2.isPrefixOf p) && !(p.isPrefixOf l2))

/-! ## CoT codec (crates/omnitak-cot/src/lib.rs)

`T` abstracts `chrono::DateTime<Utc>` and `F` abstracts `f64`; the
formatting/parsing functions of those external libraries are passed
explicitly. -/

/-- Geographic point (struct `Point`); the five `f64` fields are
abstracted by `F`. -/
structure Point (F : Type) where
  lat : F
  lon : F
  hae : F
  ce : F
  le : F
deriving DecidableEq

/-- CoT message (struct `CotMessage`). -/
structure CotMessage (T F : Type) where
  uid : List Char
  event_type : List Char
  how : List Char
  time : T
  start : T
  stale : T
  point : Point F
  detail : Option (List Char)
deriving DecidableEq

/-- The two chars `="` that `extract_attribute` appends to the
attribute name to build its search pattern. -/
def eqQuote : List Char := ['=', '"']

/-- Model of `extract_attribute`: find `attr="`, then take everything
up to the next `"`. -/
def extract_attribute (xml attr : List Char) : Option (List Char) :=
  match findSub (attr ++ eqQuote) xml with
  | none => none
  | some i =>
    let rest := xml.drop (i + (attr.length + 2))
    match findSub ['"'] rest with
    | none => none
    | some j => some (rest.take j)

/-- `"<point"` — the tag `extract_point_attribute` locates first. -/
def pointTag : List Char := ("<point").data

/-- `"/>"` — the closing the point section is delimited by. -/
def slashGt : List Char := ("/>").data

/-- Model of `extract_point_attribute`: restrict to the slice from
`<point` up to (excluding) the next `/>`, then run
`extract_attribute` inside it. -/
def extract_point_attribute (xml attr : List Char) : Option (List Char) :=
  match findSub pointTag xml with
  | none => none
  | some i =>
    let sect := xml.drop i
    match findSub slashGt sect with
    | none => none
    | some j => extract_attribute (sect.take j) attr

/-- `"<detail>"`. -/
def detailOpen : List Char := ("<detail>").data

/-- `"</detail>"`. -/
def detailClose : List Char := ("</detail>").data

/-- Model of `extract_detail`: the slice strictly between the first
`<detail>` (ends at its index + 8) and the first `</detail>`. -/
def extract_detail (xml : List Char) : Option (List Char) :=
  match findSub detailOpen xml with
  | none => none
  | some s =>
    match findSub detailClose xml with
    | none => none
    | some e => some ((xml.take e).drop (s + 8))

/-- Fixed text of the `to_xml` format string before the `uid="`
pattern. -/
def xmlHead : List Char :=
  ("<?xml version=\"1.0\" encoding=\"UTF-8\"?><event version=\"2.0\" ").data

/-- `'"'` then `' '` — the separator between an attribute value and the
next attribute name in the `to_xml` format string. -/
def qSp : List Char := ['"', ' ']

/-- `"\"><point "` — between the `stale` value and the `lat="`
pattern (written via `pointTag` so that its leading quote is exposed;
the list is exactly the chars of `"><point `). -/
def pointHead : List Char := ['"', '>'] ++ pointTag ++ [' ']

/-- `"\"/>"` — closes the `point` element (exactly the chars of
`"/>`). -/
def pointClose : List Char := '"' :: slashGt

/-- `"</event>"`. -/
def eventClose : List Char := ("</event>").data

def uidName : List Char := ("uid").data
def typeName : List Char := ("type").data
def howName : List Char := ("how").data
def timeName : List Char := ("time").data
def startName : List Char := ("start").data
def staleName : List Char := ("stale").data
def latName : List Char := ("lat").data
def lonName : List Char := ("lon").data
def haeName : List Char := ("hae").data
def ceName : List Char := ("ce").data
def leName : List Char := ("le").data

/-- Model of `CotMessage::to_xml`.  The concatenation below reproduces
the `format!` string of the source exactly: prolog and event tag with
`uid`, `type`, `how`, `time`, `start`, `stale` attributes, a
self-closing `point` element with `lat`, `lon`, `hae`, `ce`, `le`,
then the optional `<detail>…</detail>` and `</event>`.  `fmtT` stands
for `DateTime::to_rfc3339_opts(SecondsFormat::Millis, true)` and
`fmtF` for the `Display` of `f64`.  The Rust function returns
`Ok(xml)` unconditionally, so the model is total. -/
def to_xml {T F : Type} (fmtT : T → List Char) (fmtF : F → List Char)
    (m : CotMessage T F) : List Char :=
  xmlHead ++ (uidName ++ eqQuote) ++ m.uid ++
  qSp ++ (typeName ++ eqQuote) ++ m.event_type ++
  qSp ++ (howName ++ eqQuote) ++ m.how ++
  qSp ++ (timeName ++ eqQuote) ++ fmtT m.time ++
  qSp ++ (startName ++ eqQuote) ++ fmtT m.start ++
  qSp ++ (staleName ++ eqQuote) ++ fmtT m.stale ++
  pointHead ++ (latName ++ eqQuote) ++ fmtF m.point.lat ++
  qSp ++ (lonName ++ eqQuote) ++ fmtF m.point.lon ++
  qSp ++ (haeName ++ eqQuote) ++ fmtF m.point.hae ++
  qSp ++ (ceName ++ eqQuote) ++ fmtF m.point.ce ++
  qSp ++ (leName ++ eqQuote) ++ fmtF m.point.le ++
  pointClose ++
  (match m.detail with
   | some d => detailOpen ++ d ++ detailClose
   | none => []) ++
  eventClose

/-- `"h-e"` — the default `how` used by `from_xml` when the attribute
is absent. -/
def heDefault : List Char := ("h-e").data

/-- Model of `CotMessage::from_xml`.  `parseT` stands for
`DateTime::parse_from_rfc3339` (plus the conversion to UTC) and
`parseF` for `str::parse::<f64>`. -/
def from_xml {T F : Type} (parseT : List Char → Option T)
    (parseF : List Char → Option F) (xml : List Char) :
    Option (CotMessage T F) :=
  match extract_attribute xml uidName with
  | none => none
  | some uid =>
  match extract_attribute xml typeName with
  | none => none
  | some ety =>
  let how := (extract_attribute xml howName).getD heDefault
  match (extract_attribute xml timeName).bind parseT with
  | none => none
  | some time =>
  match (extract_attribute xml startName).bind parseT with
  | none => none
  | some start =>
  match (extract_attribute xml staleName).bind parseT with
  | none => none
  | some stale =>
  match (extract_point_attribute xml latName).bind parseF with
  | none => none
  | some lat =>
  match (extract_point_attribute xml lonName).bind parseF with
  | none => none
  | some lon =>
  match (extract_point_attribute xml haeName).bind parseF with
  | none => none
  | some hae =>
  match (extract_point_attribute xml ceName).bind parseF with
  | none => none
  | some ce =>
  match (extract_point_attribute xml leName).bind parseF with
  | none => none
  | some le =>
  some { uid := uid, event_type := ety, how := how, time := time,
         start := start, stale := stale,
         point := { lat := lat, lon := lon, hae := hae, ce := ce, le := le },
         detail := extract_detail xml }

/-- Freedom from the XML metacharacters `< > & "`. -/
def metaFree (v : List Char) : Prop :=
  ∀ c ∈ v, c ≠ '<' ∧ c ≠ '>' ∧ c ≠ '&' ∧ c ≠ '"'

/-- Freedom from `'='`. -/
def noEq (v : List Char) : Prop := ∀ c ∈ v, c ≠ '='

/-- The character shape of a formatted RFC 3339 timestamp (digits,
`-`, `:`, `.`, `T`, `Z`): in particular free of `"`, `=`, `<`. -/
def timeStrOK (v : List Char) : Prop := ∀ c ∈ v, c ≠ '"' ∧ c ≠ '=' ∧ c ≠ '<'

/-- The character shape of a formatted finite `f64` (digits, `-`,
`.`): in particular free of `"`, `=`, `<`, `/`. -/
def numStrOK (v : List Char) : Prop :=
  ∀ c ∈ v, c ≠ '"' ∧ c ≠ '=' ∧ c ≠ '<' ∧ c ≠ '/'

instance (v : List Char) : Decidable (metaFree v) := by
  unfold metaFree; infer_instance

instance (v : List Char) : Decidable (noEq v) := by
  unfold noEq; infer_instance

instance (v : List Char) : Decidable (timeStrOK v) := by
  unfold timeStrOK; infer_instance

instance (v : List Char) : Decidable (numStrOK v) := by
  unfold numStrOK; infer_instance

/-! ## Stream splitter (crates/omnitak-server/src/client.rs) -/

/-- Model of `Client::extract_complete_message`: find the first
`</event>`, yield the buffer up to and including it, keep the rest. -/
def extract_complete_message (buffer : List Char) :
    Option (List Char × List Char) :=
  match findSub eventClose buffer with
  | none => none
  | some i => some (buffer.take (i + 8), buffer.drop (i + 8))

/-! ## Radio framing (crates/omnitak-meshtastic/src/lib.rs)

Bytes are `Nat`; `Env` abstracts the `FromRadio` protobuf message and
`dec` its prost decoder. -/

/-- The scan loop of `extract_frame`: `for i in
0..buffer.len().saturating_sub(3)`, returning the first `i` with
`buffer[i] = 0x94` (`START1`) and `buffer[i+1] = 0xC3` (`START2`).
The `fuel` argument only drives structural recursion; it is set to the
buffer length at the call site, which strictly bounds the number of
loop iterations. -/
def scan_magic_go (b : List Nat) : Nat → Nat → Option Nat
  | _, 0 => none
  | i, fuel + 1 =>
    if i < b.length - 3 then
      if b.getD i 0 = 0x94 ∧ b.getD (i + 1) 0 = 0xC3 then some i
      else scan_magic_go b (i + 1) fuel
    else none

/-- First frame-start position found by the scan loop of
`extract_frame`. -/
def scan_magic (b : List Nat) : Option Nat := scan_magic_go b 0 b.length

/-- One step of `MeshtasticClient::extract_frame` on buffer `b`
(after the `len > 512` skip the Rust code recurses; `fuel` bounds that
recursion and is set to the buffer length at the call site, ample since
each skip consumes 4 bytes).  Returns the Rust `Result<Option<_>>`
paired with the buffer contents left in place. -/
def extract_frame_go {Env : Type} (dec : List Nat → Option Env) :
    Nat → List Nat → Except Unit (Option Env) × List Nat
  | 0, b => (.ok none, b)
  | fuel + 1, b =>
    match scan_magic b with
    | none =>
      -- "Keep last byte in case it's START1"
      if b.length > 1 then (.ok none, b.drop (b.length - 1))
      else (.ok none, b)
    | some idx =>
      let b1 := b.drop idx
      if b1.length < 4 then (.ok none, b1)
      else
        let len := 256 * b1.getD 2 0 + b1.getD 3 0
        if len > 512 then extract_frame_go dec fuel (b1.drop 4)
        else if b1.length < 4 + len then (.ok none, b1)
        else
          match dec ((b1.drop 4).take len) with
          | some env => (.ok (some env), (b1.drop 4).drop len)
          | none => (.error (), (b1.drop 4).drop len)

/-- Model of `MeshtasticClient::extract_frame`. -/
def extract_frame {Env : Type} (dec : List Nat → Option Env)
    (b : List Nat) : Except Unit (Option Env) × List Nat :=
  extract_frame_go dec (b.length + 1) b

/-- Feed a byte stream into the buffer one byte at a time, calling
`extract_frame` after each byte exactly as the read loop would; returns
the final buffer and the result of every call. -/
def feed_bytes {Env : Type} (dec : List Nat → Option Env)
    (bytes : List Nat) : List Nat × List (Except Unit (Option Env)) :=
  bytes.foldl
    (fun acc byte =>
      let r := extract_frame dec (acc.1 ++ [byte])
      (r.2, acc.2 ++ [r.1]))
    ([], [])

/-- Model of `MeshtasticClient::encode_frame`: magic bytes, big-endian
`u16` length (the Rust code writes `payload.len() as u16`, a truncation
mod 2^16), then the payload.  `enc` abstracts the prost encoder of
`ToRadio`; encoding into a `Vec` never fails, so the only `Result` the
Rust function returns is `Ok`. -/
def encode_frame {Env : Type} (enc : Env → List Nat) (e : Env) :
    Option (List Nat) :=
  let payload := enc e
  some ([0x94, 0xC3, (payload.length % 65536) / 256, payload.length % 256]
        ++ payload)

/-! ## Chunking and the incoming-packet handler -/

/-- `MAX_DATA_SIZE` (maximum data payload after protobuf overhead). -/
def MAX_DATA_SIZE : Nat := 200

/-- Protobuf `ChunkedPayload` message. -/
structure ChunkedPayload where
  payload_id : Nat
  chunk_count : Nat
  chunk_index : Nat
  payload_chunk : List Nat
deriving DecidableEq

/-- `slice::chunks(n)`: split into consecutive slices of `n` elements
(the last may be shorter); yields nothing on an empty slice.  `fuel`
drives structural recursion and is set to the list length at the call
site. -/
def chunks_go (n : Nat) : Nat → List Nat → List (List Nat)
  | _, [] => []
  | 0, _ => []
  | fuel + 1, l => l.take n :: chunks_go n fuel (l.drop n)

/-- `slice::chunks(n)`. -/
def chunksOf (n : Nat) (l : List Nat) : List (List Nat) :=
  chunks_go n l.length l

/-- Model of `MeshtasticClient::chunk_payload` up to the protobuf /
mesh-packet wrapping: the `ChunkedPayload` records built for a payload,
with `chunk_size = MAX_DATA_SIZE - 20`, `chunk_count =
ceil(len / chunk_size)` and `chunk_index` the enumeration index.
`payload_id` abstracts the `rand::random()` draw. -/
def chunk_payload (payload_id : Nat) (payload : List Nat) :
    List ChunkedPayload :=
  let chunk_size := MAX_DATA_SIZE - 20
  let chunk_count := (payload.length + chunk_size - 1) / chunk_size
  (chunksOf chunk_size payload).enum.map
    (fun ic => { payload_id := payload_id, chunk_count := chunk_count,
                 chunk_index := ic.1, payload_chunk := ic.2 })

/-- Meshtastic port numbers interpreted by `handle_from_radio`. -/
inductive PortNum where
  | atakForwarder
  | atakPlugin
  | positionApp
  | textMessageApp
  | other
deriving DecidableEq

/-- Protobuf `Data` (the fields `handle_from_radio` reads). -/
structure DataMsg where
  portnum : PortNum
  payload : List Nat
deriving DecidableEq

/-- `mesh_packet::PayloadVariant`. -/
inductive MeshPayloadVariant where
  | decoded (d : DataMsg)
  | encrypted
deriving DecidableEq

/-- Protobuf `MeshPacket` (the fields `handle_from_radio` reads). -/
structure MeshPacket where
  fromNode : Nat
  payload_variant : Option MeshPayloadVariant
deriving DecidableEq

/-- `from_radio::PayloadVariant`. -/
inductive FromRadioVariant where
  | packet (p : MeshPacket)
  | otherVariant
deriving DecidableEq

/-- Protobuf `FromRadio`. -/
structure FromRadio where
  payload_variant : Option FromRadioVariant
deriving DecidableEq

/-- Per-chunk reassembly state (struct `ChunkReassembler`; the
`created_at` instant is omitted — wall-clock time is outside the
model and the field is never consulted anywhere in the source). -/
structure ChunkReassembler where
  chunks : List (Nat × List Nat)
  total_chunks : Nat
deriving DecidableEq

/-- The fields of `ClientState` that `handle_from_radio` can touch. -/
structure ClientState where
  messages_received : Nat
  chunk_reassembly : List (Nat × ChunkReassembler)
deriving DecidableEq

/-- Model of `MeshtasticClient::handle_from_radio`.  The three
converters (`meshtastic_to_cot`, `position_to_cot` via `Position`
decode, `chat_to_cot` via UTF-8 decode) call into chrono/uuid and
prost, so they are abstracted as parameters returning `Option` of the
CoT XML handed to the callback; the callback itself is modelled by
returning the list of emitted strings. -/
def handle_from_radio
    (convTak : List Nat → MeshPacket → Option (List Char))
    (convPos : List Nat → Nat → Option (List Char))
    (convChat : List Nat → Nat → Option (List Char))
    (fr : FromRadio) (st : ClientState) : ClientState × List (List Char) :=
  match fr.payload_variant with
  | some (.packet p) =>
    let st1 : ClientState :=
      { st with messages_received := st.messages_received + 1 }
    match p.payload_variant with
    | some (.decoded d) =>
      if d.portnum = PortNum.atakForwarder ∨ d.portnum = PortNum.atakPlugin then
        match convTak d.payload p with
        | some cot => (st1, [cot])
        | none => (st1, [])
      else if d.portnum = PortNum.positionApp then
        match convPos d.payload p.fromNode with
        | some cot => (st1, [cot])
        | none => (st1, [])
      else if d.portnum = PortNum.textMessageApp then
        match convChat d.payload p.fromNode with
        | some cot => (st1, [cot])
        | none => (st1, [])
      else (st1, [])
    | _ => (st1, [])
  | _ => (st, [])

/-! ## Router (crates/omnitak-server/src/router.rs) -/

/-- Router state: the `client_id → outbound sender` map (queues
modelled as lists, `DashMap` as an association list with distinct
keys) and the total-messages counter. -/
structure RouterState (Msg : Type) where
  clients : List (Nat × List Msg)
  total_messages : Nat

/-- Model of `CotRouter::route_message`: bump the counter and append
the message to every registered client's queue except the sender's.
(The model has no closed channels, so the disconnected-client cleanup
loop of the source operates on an empty list and is omitted.) -/
def route_message {Msg : Type} (rs : RouterState Msg)
    (from_client_id : Nat) (cot_xml : Msg) : RouterState Msg :=
  { clients :=
      rs.clients.map
        (fun e => if e.1 = from_client_id then e else (e.1, e.2 ++ [cot_xml])),
    total_messages := rs.total_messages + 1 }

/-! ## Configuration (crates/omnitak-server/src/config.rs) -/

/-- `TlsConfig`. -/
structure TlsConfig where
  cert_path : List Char
  key_path : List Char
  ca_path : Option (List Char)
  require_client_cert : Bool
deriving DecidableEq

/-- `ServerConfig` (ports are `u16`/`usize`; modelled as `Nat`). -/
structure ServerConfig where
  bind_address : List Char
  tcp_port : Nat
  tls_port : Nat
  marti_port : Nat
  tls : Option TlsConfig
  debug : Bool
  max_clients : Nat
  client_timeout_secs : Nat
  data_package_dir : Option (List Char)
deriving DecidableEq

/-- Model of `ServerConfig::validate`. -/
def validate (c : ServerConfig) : Except (List Char) Unit :=
  if c.tcp_port = 0 ∧ c.tls_port = 0 then
    .error ("At least one of tcp_port or tls_port must be non-zero").data
  else if c.tls_port > 0 ∧ c.tls = none then
    .error ("TLS configuration required when tls_port is set").data
  else if c.max_clients = 0 then
    .error ("max_clients must be greater than 0").data
  else .ok ()

/-- Model of `TakServer::new` restricted to its only fallible step:
`config.validate()?`, after which the server owns the unchanged
config.  (Router construction and task spawning never fail.) -/
def tak_server_new (c : ServerConfig) : Except (List Char) ServerConfig :=
  match validate c with
  | .error e => .error e
  | .ok _ => .ok c

/-! ## Theorems: search machinery -/

theorem isPrefixOf_iff {l m : List Char} : l.isPrefixOf m = true ↔ IsPref l m := by
  induction l generalizing m with
  | nil => simp [List.isPrefixOf, IsPref]
  | cons c t ih =>
    cases m with
    | nil => simp [List.isPrefixOf, IsPref]
    | cons d u =>
      simp only [List.isPrefixOf, Bool.and_eq_true, beq_iff_eq, ih, IsPref,
        List.cons_append, List.cons.injEq]
      constructor
      · rintro ⟨rfl, t', rfl⟩; exact ⟨t', rfl, rfl⟩
      · rintro ⟨t', rfl, rfl⟩; exact ⟨rfl, t', rfl⟩

theorem IsPref.head {c d : Char} {p s : List Char}
    (h : IsPref (c :: p) (d :: s)) : c = d := by
  obtain ⟨t, ht⟩ := h
  simpa using congrArg (fun l => l.head? ) ht.symm

theorem isPref_append_self (p t : List Char) : IsPref p (p ++ t) := ⟨t, rfl⟩

theorem isPref_take {p s : List Char} (h : IsPref p s) :
    p = s.take p.length := by
  obtain ⟨t, rfl⟩ := h
  simp

theorem findSub_decomp {p pre post : List Char} (hp : p ≠ [])
    (hn : NoMatchIn p pre (p ++ post)) :
    findSub p (pre ++ p ++ post) = some pre.length := by
  induction pre with
  | nil =>
    cases p with
    | nil => exact absurd rfl hp
    | cons c t =>
      rw [List.nil_append]
      show findSub (c :: t) ((c :: t) ++ post) = some 0
      cases h : ((c :: t) ++ post) with
      | nil => simp at h
      | cons d u =>
        rw [← h]
        have : (c :: t).isPrefixOf ((c :: t) ++ post) = true :=
          isPrefixOf_iff.mpr (isPref_append_self _ _)
        rw [h] at this ⊢
        simp only [findSub, this, if_true]
  | cons c pre' ih =>
    have hnot : ¬ (p.isPrefixOf ((c :: pre') ++ (p ++ post))) = true := by
      intro hcontra
      exact hn [] (c :: pre') rfl (by simp) (isPrefixOf_iff.mp hcontra)
    have hn' : NoMatchIn p pre' (p ++ post) := by
      intro l1 l2 hsplit hne
      exact hn (c :: l1) l2 (by simp [hsplit]) hne
    have hrec := ih hn'
    show findSub p (c :: (pre' ++ p ++ post)) = some (pre'.length + 1)
    rw [findSub]
    have : ¬ (p.isPrefixOf (c :: (pre' ++ p ++ post))) = true := by
      simpa [List.append_assoc] using hnot
    simp only [this, if_neg, Bool.false_eq_true, not_false_eq_true, if_false]
    rw [hrec]
    rfl

theorem findSub_none {p s : List Char} (hp : p ≠ [])
    (hn : NoMatchIn p s []) : findSub p s = none := by
  induction s with
  | nil => simp [findSub, List.isEmpty_iff, hp]
  | cons c t ih =>
    rw [findSub]
    have hnot : ¬ (p.isPrefixOf (c :: t)) = true := by
      intro hcontra
      have := hn [] (c :: t) rfl (by simp)
      rw [List.append_nil] at this
      exact this (isPrefixOf_iff.mp hcontra)
    simp only [hnot, if_neg, Bool.false_eq_true, not_false_eq_true, if_false]
    have : NoMatchIn p t [] := by
      intro l1 l2 hsplit hne
      exact hn (c :: l1) l2 (by simp [hsplit]) hne
    rw [ih this]
    rfl


theorem findSub_some {p s : List Char} {i : Nat}
    (h : findSub p s = some i) :
    ∃ pre post, s = pre ++ p ++ post ∧ pre.length = i := by
  induction s generalizing i with
  | nil =>
    by_cases hp : p.isEmpty
    · simp only [findSub, hp, if_true, Option.some.injEq] at h
      exact ⟨[], [], by simp [List.isEmpty_iff.mp hp], by simp [← h]⟩
    · simp [findSub, hp] at h
  | cons c t ih =>
    rw [findSub] at h
    by_cases hpre : p.isPrefixOf (c :: t)
    · simp only [hpre, if_true, Option.some.injEq] at h
      obtain ⟨u, hu⟩ := isPrefixOf_iff.mp hpre
      exact ⟨[], u, by simp [hu], by simp [← h]⟩
    · simp only [hpre, if_neg, Bool.false_eq_true, not_false_eq_true, if_false,
        Option.map_eq_some'] at h
      obtain ⟨j, hj, rfl⟩ := h
      obtain ⟨pre, post, hsplit, hlen⟩ := ih hj
      exact ⟨c :: pre, post, by simp [hsplit], by simp [hlen]⟩

theorem noMatchIn_append {p a b r : List Char}
    (ha : NoMatchIn p a (b ++ r)) (hb : NoMatchIn p b r) :
    NoMatchIn p (a ++ b) r := by
  intro l1 l2 hsplit hne
  rcases List.append_eq_append_iff.mp hsplit.symm with ⟨a2, ha2, hl2⟩ | ⟨c2, _, hb2⟩
  · cases a2 with
    | nil =>
      rw [hl2, List.nil_append]
      exact hb [] b rfl (by rintro rfl; rw [List.append_nil] at hl2; exact hne hl2)
    | cons x xs =>
      rw [hl2]
      intro hh
      exact ha l1 (x :: xs) ha2 (by simp) (by simpa [List.append_assoc] using hh)
  · exact hb c2 l2 hb2 hne

theorem noMatchIn_head {p v r : List Char} {c : Char}
    (hp : p.head? = some c) (hv : c ∉ v) : NoMatchIn p v r := by
  intro l1 l2 hsplit hne hpref
  cases p with
  | nil => simp at hp
  | cons c0 p' =>
    simp only [List.head?, Option.some.injEq] at hp
    cases l2 with
    | nil => exact hne rfl
    | cons d l2' =>
      have hcd : c0 = d := IsPref.head (by simpa using hpref)
      exact hv (by rw [← hp, hcd]; simp [hsplit])

theorem pref_short {p l2 r : List Char} (h : IsPref p (l2 ++ r))
    (hle : l2.length ≤ p.length) : l2 = p.take l2.length := by
  obtain ⟨t, ht⟩ := h
  have h1 : l2 = (l2 ++ r).take l2.length := by
    rw [List.take_append_of_le_length (le_refl _), List.take_length]
  rw [ht, List.take_append_of_le_length hle] at h1
  exact h1

theorem pref_long {p l2 r : List Char} (h : IsPref p (l2 ++ r))
    (hle : p.length ≤ l2.length) : IsPref p l2 := by
  obtain ⟨t, ht⟩ := h
  have h1 : p = (l2 ++ r).take p.length := by
    rw [ht, List.take_append_of_le_length (le_refl _), List.take_length]
  rw [List.take_append_of_le_length hle] at h1
  refine ⟨l2.drop p.length, ?_⟩
  nth_rewrite 1 [← List.take_append_drop p.length l2]
  rw [← h1]

theorem pref_drop {p l2 r : List Char} (h : IsPref p (l2 ++ r))
    (hle : l2.length ≤ p.length) : IsPref (p.drop l2.length) r := by
  obtain ⟨t, ht⟩ := h
  refine ⟨t, ?_⟩
  have := congrArg (fun s => s.drop l2.length) ht
  simpa [List.drop_append_of_le_length hle] using this

theorem isPref_of_take {l p : List Char} (h : l = p.take l.length) :
    IsPref l p := by
  refine ⟨p.drop l.length, ?_⟩
  nth_rewrite 1 [← List.take_append_drop l.length p]
  rw [← h]

theorem noMatchIn_of_scanOKb {p l : List Char} (h : scanOKb p l = true)
    (r : List Char) : NoMatchIn p l r := by
  intro l1 l2 hsplit hne hpref
  have hmem : l2 ∈ l.tails := by
    rw [List.mem_tails]
    exact ⟨l1, hsplit.symm⟩
  have hcond := (List.all_eq_true.mp h) l2 hmem
  simp only [Bool.or_eq_true, List.isEmpty_iff, Bool.and_eq_true,
    Bool.not_eq_true'] at hcond
  rcases hcond with h0 | ⟨h1, h2⟩
  · exact hne h0
  · by_cases hlen : p.length ≤ l2.length
    · rw [isPrefixOf_iff.mpr (pref_long hpref hlen)] at h2
      simp at h2
    · push_neg at hlen
      rw [isPrefixOf_iff.mpr
        (isPref_of_take (pref_short hpref (Nat.le_of_lt hlen)))] at h1
      simp at h1

theorem noMatchIn_attrVal {nm v r : List Char}
    (hnm : '"' ∉ nm)
    (hv : ∀ c ∈ v, c ≠ '"' ∧ c ≠ '=') :
    NoMatchIn (nm ++ eqQuote) v ('"' :: r) := by
  intro l1 l2 hsplit hne hpref
  have hsub : ∀ c ∈ l2, c ∈ v := by
    intro c hc; rw [hsplit]; exact List.mem_append_right _ hc
  set p := nm ++ eqQuote with hpdef
  have hplen : p.length = nm.length + 2 := by simp [hpdef, eqQuote]
  by_cases hlen : p.length ≤ l2.length
  · -- the whole pattern would sit inside `l2 ⊆ v`, but `v` has no quote
    obtain ⟨t, ht⟩ := pref_long hpref hlen
    have hq : '"' ∈ l2 := by
      rw [ht]
      refine List.mem_append_left _ ?_
      simp [hpdef, eqQuote]
    exact ((hv _ (hsub _ hq)).1 rfl)
  · push_neg at hlen
    have hl2 : l2 = p.take l2.length := pref_short hpref (Nat.le_of_lt hlen)
    have hdp : IsPref (p.drop l2.length) ('"' :: r) :=
      pref_drop hpref (Nat.le_of_lt hlen)
    rcases Nat.lt_trichotomy l2.length nm.length with hcase | hcase | hcase
    · -- head of the remaining pattern is a char of `nm`, yet must be `'"'`
      exfalso
      have hdrop : p.drop l2.length = nm.drop l2.length ++ eqQuote := by
        rw [hpdef, List.drop_append_of_le_length (Nat.le_of_lt hcase)]
      have hne2 : nm.drop l2.length ≠ [] := by
        intro hc
        have := congrArg List.length hc
        simp at this
        omega
      obtain ⟨d, ds, hds⟩ := List.exists_cons_of_ne_nil hne2
      have hd : d = '"' := by
        have hform : p.drop l2.length = d :: (ds ++ eqQuote) := by
          rw [hdrop, hds]; rfl
        rw [hform] at hdp
        exact IsPref.head hdp
      refine hnm ?_
      rw [← hd]
      exact List.drop_subset l2.length nm (by rw [hds]; exact List.mem_cons_self d ds)
    · -- remaining pattern is `="`, whose head is not `'"'`
      exfalso
      have hdrop : p.drop l2.length = eqQuote := by
        rw [hpdef, hcase, List.drop_left]
      rw [hdrop] at hdp
      have : '=' = '"' := IsPref.head (by simpa [eqQuote] using hdp)
      simp at this
    · -- `l2 = nm ++ ['=']`, so `'=' ∈ v`
      have hl2len : l2.length = nm.length + 1 := by omega
      have : l2 = nm ++ ['='] := by
        rw [hl2, hl2len, hpdef]
        rw [List.take_append_eq_append_take]
        simp [eqQuote]
      have hmemEq : '=' ∈ l2 := by rw [this]; simp
      exact ((hv _ (hsub _ hmemEq)).2 rfl)

theorem extract_attribute_eq {xml attr v : List Char} (pre post : List Char)
    (hx : xml = pre ++ ((attr ++ eqQuote) ++ (v ++ '"' :: post)))
    (hn : NoMatchIn (attr ++ eqQuote) pre
      ((attr ++ eqQuote) ++ (v ++ '"' :: post)))
    (hv : '"' ∉ v) :
    extract_attribute xml attr = some v := by
  have hp : (attr ++ eqQuote) ≠ [] := by simp [eqQuote]
  have hfind : findSub (attr ++ eqQuote) xml = some pre.length := by
    rw [hx, ← List.append_assoc]
    exact findSub_decomp hp hn
  rw [extract_attribute, hfind]
  have hdrop : xml.drop (pre.length + (attr.length + 2)) = v ++ '"' :: post := by
    rw [hx, ← List.append_assoc]
    refine List.drop_left' ?_
    simp [eqQuote]
  simp only [hdrop]
  have hq : findSub ['"'] (v ++ '"' :: post) = some v.length := by
    have hform : v ++ '"' :: post = v ++ ['"'] ++ post := by simp
    rw [hform]
    exact findSub_decomp (by simp)
      (noMatchIn_head (c := '"') rfl hv)
  rw [hq]
  simp only [Option.some.injEq]
  exact List.take_left' rfl

theorem extract_complete_message_eq (pre post : List Char)
    (hn : NoMatchIn eventClose pre (eventClose ++ post)) :
    extract_complete_message (pre ++ eventClose ++ post) =
      some (pre ++ eventClose, post) := by
  have hfind : findSub eventClose (pre ++ eventClose ++ post) =
      some pre.length := findSub_decomp (by decide) hn
  rw [extract_complete_message, hfind]
  have hlen : (pre ++ eventClose).length = pre.length + 8 := by
    simp [eventClose]
  have htake : (pre ++ eventClose ++ post).take (pre.length + 8) =
      pre ++ eventClose := by
    rw [← hlen]
    exact List.take_left (pre ++ eventClose) post
  have hdrop : (pre ++ eventClose ++ post).drop (pre.length + 8) = post := by
    rw [← hlen]
    exact List.drop_left (pre ++ eventClose) post
  simp only [htake, hdrop]

/-- C10.  Stream-splitter conservation: when the buffer decomposes as
`pre ++ "</event>" ++ post` with no earlier occurrence of `</event>`,
`extract_complete_message` yields exactly the prefix up to and
including that first `</event>` together with the remaining suffix, so
the two parts concatenate back to the buffer; when the buffer contains
no `</event>` at all it yields `none` (leaving the buffer unchanged). -/
theorem claim_c10_splitter_conservation :
    (∀ b pre post, b = pre ++ eventClose ++ post →
      NoMatchIn eventClose pre (eventClose ++ post) →
      extract_complete_message b = some (pre ++ eventClose, post) ∧
        (pre ++ eventClose) ++ post = b) ∧
    (∀ b, (∀ pre post, b ≠ pre ++ eventClose ++ post) →
      extract_complete_message b = none) := by
  constructor
  · intro b pre post hb hn
    subst hb
    exact ⟨extract_complete_message_eq pre post hn, rfl⟩
  · intro b hno
    rw [extract_complete_message]
    cases hfind : findSub eventClose b with
    | none => rfl
    | some i =>
      obtain ⟨pre, post, hsplit, _⟩ := findSub_some hfind
      exact absurd hsplit (hno pre post)

theorem claim_c10_splitter_conservation_witness :
    extract_complete_message (("ab<event x=1/></event>tail").data) =
      some ((("ab<event x=1/></event>").data), ("tail").data) ∧
    extract_complete_message (("abc").data) = none := by
  constructor
  · exact ((claim_c10_splitter_conservation.1
      (("ab<event x=1/></event>tail").data) (("ab<event x=1/>").data)
      (("tail").data) (by decide)
      (noMatchIn_of_scanOKb (by decide) _))).1
  · refine claim_c10_splitter_conservation.2 (("abc").data) ?_
    intro pre post h
    have hl := congrArg List.length h
    rw [List.length_append, List.length_append] at hl
    have h3 : (("abc").data).length = 3 := rfl
    have h8 : eventClose.length = 8 := rfl
    rw [h3, h8] at hl
    omega

/-- C7 counterexample: on the buffer `" <event/></event>"` (one
separating space, then an event document) the streaming extraction
yields the space together with the event — the separating byte is part
of the yielded message, not discarded, so the yield is not the event
document alone. -/
theorem claim_c7_counterexample :
    extract_complete_message ((" <event/></event>").data) =
      some (((" <event/></event>").data), []) ∧
    (" <event/></event>").data ≠ ("<event/></event>").data := by
  constructor
  · decide
  · decide

/-- C7 (amended).  Unknown bytes between events are tolerated but NOT
discarded: a yield at a `</event>` boundary consists of the separating
bytes followed by the event document (the whole prefix of the buffer
up to and including the first `</event>`). -/
theorem claim_c7_separators_retained :
    ∀ sep body rest,
      NoMatchIn eventClose (sep ++ body) (eventClose ++ rest) →
      extract_complete_message (sep ++ body ++ eventClose ++ rest) =
        some (sep ++ body ++ eventClose, rest) := by
  intro sep body rest hn
  exact extract_complete_message_eq (sep ++ body) rest hn

theorem claim_c7_separators_retained_witness :
    extract_complete_message
      ((" \n").data ++ ("<event/>").data ++ eventClose ++ ("z").data) =
      some ((" \n").data ++ ("<event/>").data ++ eventClose, ("z").data) :=
  claim_c7_separators_retained ((" \n").data) (("<event/>").data) (("z").data)
    (noMatchIn_of_scanOKb (by decide) _)

/-! ## Theorems: router fan-out -/

theorem lookup_route_map {Msg : Type} :
    ∀ (cs : List (Nat × List Msg)) (i : Nat) (qi : List Msg) (f : Nat)
      (m : Msg),
      (cs.map Prod.fst).Nodup → (i, qi) ∈ cs →
      List.lookup i
        (cs.map (fun e => if e.1 = f then e else (e.1, e.2 ++ [m]))) =
        some (if i = f then qi else qi ++ [m]) := by
  intro cs
  induction cs with
  | nil => intro i qi f m _ hmem; simp at hmem
  | cons e cs' ih =>
    obtain ⟨k, v⟩ := e
    intro i qi f m hnd hmem
    rw [List.map_cons, List.nodup_cons] at hnd
    rcases List.mem_cons.mp hmem with heq | htail
    · rw [Prod.mk.injEq] at heq
      obtain ⟨hik, hqv⟩ := heq
      subst hik
      subst hqv
      have hhead : (if (i, qi).1 = f then (i, qi) else ((i, qi).1, (i, qi).2 ++ [m])) =
          (i, if i = f then qi else qi ++ [m]) := by
        by_cases hif : i = f <;> simp [hif]
      rw [List.map_cons, hhead]
      simp [List.lookup]
    · have hne : k ≠ i := by
        intro hc
        apply hnd.1
        rw [hc]
        exact List.mem_map.mpr ⟨(i, qi), htail, rfl⟩
      have hbeq : (i == k) = false := by
        rw [beq_eq_false_iff_ne]
        exact fun hc => hne hc.symm
      have hhead : (if (k, v).1 = f then (k, v) else ((k, v).1, (k, v).2 ++ [m])) =
          (k, if k = f then v else v ++ [m]) := by
        by_cases hkf : k = f <;> simp [hkf]
      rw [List.map_cons, hhead]
      simp only [List.lookup, hbeq]
      exact ih i qi f m hnd.2 htail

/-- C4.  Fan-out correctness: with distinct registered client ids,
`route_message from msg` appends the message exactly once to the queue
of every registered client other than the sender (the new queue is the
old queue with `msg` appended once at the end) and leaves the sender's
queue untouched; the registry itself and its key set are unchanged and
the total-message counter increases by one. -/
theorem claim_c4_fanout {Msg : Type} (rs : RouterState Msg) (i f : Nat)
    (qi : List Msg) (m : Msg)
    (hnd : (rs.clients.map Prod.fst).Nodup)
    (hmem : (i, qi) ∈ rs.clients) :
    List.lookup i (route_message rs f m).clients =
      some (if i = f then qi else qi ++ [m]) ∧
    (route_message rs f m).clients.map Prod.fst = rs.clients.map Prod.fst ∧
    (route_message rs f m).total_messages = rs.total_messages + 1 := by
  refine ⟨lookup_route_map rs.clients i qi f m hnd hmem, ?_, rfl⟩
  rw [route_message]
  rw [List.map_map]
  apply List.map_congr_left
  intro e _
  by_cases hef : e.1 = f <;> simp [hef]

theorem claim_c4_fanout_witness :
    List.lookup 2
      (route_message
        ({ clients := [(1, []), (2, [])], total_messages := 0 } :
          RouterState Nat) 1 7).clients =
      some (if 2 = 1 then [] else [] ++ [7]) ∧
    (route_message
      ({ clients := [(1, []), (2, [])], total_messages := 0 } :
        RouterState Nat) 1 7).clients.map
        Prod.fst = [(1, ([] : List Nat)), (2, [])].map Prod.fst ∧
    (route_message
      ({ clients := [(1, []), (2, [])], total_messages := 0 } :
        RouterState Nat) 1
        7).total_messages = 0 + 1 :=
  claim_c4_fanout { clients := [(1, []), (2, [])], total_messages := 0 } 2 1
    [] 7 (by decide) (by decide)

/-! ## Theorems: configuration validation -/

/-- C8.  `ServerConfig::validate` (and hence `TakServer::new`, whose
only fallible step is `config.validate()?`) fails with a `Config`
error if and only if `tcp_port = 0 ∧ tls_port = 0`, or `tls_port > 0`
with no TLS configuration, or `max_clients = 0`; on every other
configuration it returns `Ok` and the configuration is handed on
unchanged. -/
theorem claim_c8_config_validate (c : ServerConfig) :
    ((∃ e, validate c = .error e) ↔
      ((c.tcp_port = 0 ∧ c.tls_port = 0) ∨
       (c.tls_port > 0 ∧ c.tls = none) ∨ c.max_clients = 0)) ∧
    (validate c = .ok () ↔
      ¬ ((c.tcp_port = 0 ∧ c.tls_port = 0) ∨
         (c.tls_port > 0 ∧ c.tls = none) ∨ c.max_clients = 0)) ∧
    (tak_server_new c = .ok c ↔ validate c = .ok ()) := by
  have hv : validate c = .ok () ↔
      ¬ ((c.tcp_port = 0 ∧ c.tls_port = 0) ∨
         (c.tls_port > 0 ∧ c.tls = none) ∨ c.max_clients = 0) := by
    unfold validate
    split_ifs with h1 h2 h3 <;> simp_all
  have herr : (∃ e, validate c = .error e) ↔
      ((c.tcp_port = 0 ∧ c.tls_port = 0) ∨
       (c.tls_port > 0 ∧ c.tls = none) ∨ c.max_clients = 0) := by
    unfold validate
    split_ifs with h1 h2 h3 <;> simp_all
  have htak : tak_server_new c = .ok c ↔ validate c = .ok () := by
    unfold tak_server_new
    cases hval : validate c with
    | error e => simp
    | ok u => cases u; simp
  exact ⟨herr, hv, htak⟩

/-! ## Theorems: frame emission (encode_frame) -/

/-- C6 counterexample: an envelope whose (abstracted) protobuf
encoding is 513 bytes long — strictly longer than 512 — is still
framed by `encode_frame`: the function returns `Ok`, producing a wire
frame instead of failing.  The emitter has no length check. -/
theorem claim_c6_counterexample :
    (encode_frame (fun _ : Unit => List.replicate 513 0) ()).isSome = true ∧
    (List.replicate 513 0).length > 512 := by
  constructor
  · rfl
  · rw [List.length_replicate]
    omega

/-- C6 (amended).  `encode_frame` never fails: for every envelope it
returns `Ok` with a frame of header plus payload, the payload embedded
unchanged, regardless of the payload length (the length field is the
payload length truncated to `u16`; the 512-byte limit is enforced only
by the receiving `extract_frame`, and chunking is the caller's duty). -/
theorem claim_c6_no_emitter_limit {Env : Type} (enc : Env → List Nat)
    (e : Env) :
    ∃ f, encode_frame enc e = some f ∧
      f.length = (enc e).length + 4 ∧ f.drop 4 = enc e := by
  refine ⟨_, rfl, ?_, ?_⟩
  · simp [List.length_append]
  · rfl

/-! ## Theorems: frame extraction -/

/-- C2.  The frame `94 C3 00 01 AA` is a valid frame (whole-buffer
extraction decodes it and empties the buffer), yet feeding the same
five bytes into the buffer one at a time and calling `extract_frame`
after each byte never yields it: every call reports no frame and the
final buffer retains only the last byte — the `0x94 0xC3` magic
straddling the read boundary is discarded because the scan loop runs
only up to `len - 3` and the no-match branch keeps a single byte. -/
theorem claim_c2_straddled_magic_lost :
    extract_frame (fun _ : List Nat => some ()) [0x94, 0xC3, 0x00, 0x01, 0xAA] =
      (.ok (some ()), []) ∧
    feed_bytes (fun _ : List Nat => some ()) [0x94, 0xC3, 0x00, 0x01, 0xAA] =
      ([0xAA], [.ok none, .ok none, .ok none, .ok none, .ok none]) := by
  constructor
  · rfl
  · rfl

theorem scan_magic_go_found {b : List Nat} {g : Nat}
    (hb1 : b.getD g 0 = 0x94) (hb2 : b.getD (g + 1) 0 = 0xC3)
    (hlt : g < b.length - 3)
    (hno : ∀ j, j < g → ¬ (b.getD j 0 = 0x94 ∧ b.getD (j + 1) 0 = 0xC3)) :
    ∀ fuel i, i ≤ g → g - i < fuel → scan_magic_go b i fuel = some g := by
  intro fuel
  induction fuel with
  | zero => intro i _ h; omega
  | succ fuel ih =>
    intro i hle hfuel
    rw [scan_magic_go]
    rw [if_pos (show i < b.length - 3 by omega)]
    by_cases heq : i = g
    · subst heq
      rw [if_pos ⟨hb1, hb2⟩]
    · have hilt : i < g := lt_of_le_of_ne hle heq
      rw [if_neg (hno i hilt)]
      exact ih (i + 1) (by omega) (by omega)

/-- C5.  Frame resync: a buffer consisting of garbage free of any
`0x94 0xC3` pair, then a complete well-formed frame (magic, big-endian
length of a payload `p` with `|p| ≤ 512`, then `p`, which the protobuf
layer decodes to the envelope `M`), then an arbitrary trailing
fragment, makes `extract_frame` return `M` and leave exactly the
trailing fragment in the buffer. -/
theorem claim_c5_frame_resync {Env : Type} (dec : List Nat → Option Env)
    (g p t : List Nat) (M : Env)
    (hplen : p.length ≤ 512)
    (hg : ∀ i, i < g.length → ¬ (g.getD i 0 = 0x94 ∧ g.getD (i + 1) 0 = 0xC3))
    (hdec : dec p = some M) :
    extract_frame dec
      (g ++ [0x94, 0xC3, p.length / 256, p.length % 256] ++ p ++ t) =
      (.ok (some M), t) := by
  have hassoc :
      g ++ [0x94, 0xC3, p.length / 256, p.length % 256] ++ p ++ t =
        g ++ (0x94 :: 0xC3 :: p.length / 256 :: p.length % 256 :: (p ++ t)) := by
    simp [List.append_assoc]
  rw [hassoc]
  set rest := 0x94 :: 0xC3 :: p.length / 256 :: p.length % 256 :: (p ++ t)
    with hrest
  set b := g ++ rest with hbdef
  have hrestlen : rest.length = 4 + (p.length + t.length) := by
    simp [hrest]
    omega
  have hblen : b.length = g.length + (4 + (p.length + t.length)) := by
    simp [hbdef, hrestlen]
  have hgetg : ∀ k, b.getD (g.length + k) 0 = rest.getD k 0 := by
    intro k
    rw [hbdef, List.getD_append_right]
    · simp
    · omega
  have h1 : b.getD g.length 0 = 0x94 := by
    have := hgetg 0
    simpa using this
  have h2 : b.getD (g.length + 1) 0 = 0xC3 := by
    have := hgetg 1
    simpa [hrest] using this
  have hlt : g.length < b.length - 3 := by omega
  have hno : ∀ j, j < g.length →
      ¬ (b.getD j 0 = 0x94 ∧ b.getD (j + 1) 0 = 0xC3) := by
    intro j hj hpair
    by_cases hj1 : j + 1 < g.length
    · refine hg j hj ⟨?_, ?_⟩
      · rw [← hpair.1, hbdef, List.getD_append]
        exact hj
      · rw [← hpair.2, hbdef, List.getD_append]
        exact hj1
    · have hj1' : j + 1 = g.length := by omega
      have := hpair.2
      rw [hj1', h1] at this
      simp at this
  have hscan : scan_magic b = some g.length := by
    rw [scan_magic]
    exact scan_magic_go_found h1 h2 hlt hno b.length 0 (Nat.zero_le _)
      (by omega)
  have hdropg : b.drop g.length = rest := by
    rw [hbdef]
    exact List.drop_left g rest
  have hdrop4 : rest.drop 4 = p ++ t := rfl
  have hget2 : rest.getD 2 0 = p.length / 256 := rfl
  have hget3 : rest.getD 3 0 = p.length % 256 := rfl
  have hlenval : 256 * rest.getD 2 0 + rest.getD 3 0 = p.length := by
    rw [hget2, hget3]
    exact Nat.div_add_mod p.length 256
  rw [extract_frame, extract_frame_go, hscan]
  simp only [hdropg, hrestlen, hdrop4, hlenval]
  rw [if_neg (by omega), if_neg (by omega), if_neg (by omega)]
  rw [List.take_left p t, hdec, List.drop_left p t]

theorem claim_c5_frame_resync_witness :
    extract_frame
      (fun l : List Nat => if l = [7] then some 3 else none)
      ([5] ++ [0x94, 0xC3, [7].length / 256, [7].length % 256] ++ [7] ++ [9]) =
      (.ok (some 3), [9]) :=
  claim_c5_frame_resync
    (fun l : List Nat => if l = [7] then some 3 else none)
    [5] [7] [9] 3 (by decide) (by decide) (by decide)

/-! ## Theorems: chunking and reassembly -/

theorem chunks_go_join {n : Nat} (hn : 0 < n) :
    ∀ fuel (l : List Nat), l.length ≤ fuel → (chunks_go n fuel l).flatten = l := by
  intro fuel
  induction fuel with
  | zero =>
    intro l hl
    cases l with
    | nil => rfl
    | cons c u => simp at hl
  | succ fuel ih =>
    intro l hl
    cases l with
    | nil => rfl
    | cons c u =>
      rw [chunks_go, List.flatten_cons]
      rw [ih ((c :: u).drop n) (by
        rw [List.length_drop]
        simp only [List.length_cons]
        simp only [List.length_cons] at hl
        omega)]
      exact List.take_append_drop n (c :: u)
      simp

/-- C3.  Chunking: concatenating the `payload_chunk` fields of the
records produced by `chunk_payload` in emission order — which is
`chunk_index` order, the indices being `0, 1, …` in sequence — yields
the original payload.  Reassembly, however, does not exist in the
code: `handle_from_radio` leaves the `chunk_reassembly` map untouched
on EVERY input (it never decodes a `ChunkedPayload` and never inserts
into, reads, or completes a partial entry), so no arrival permutation
ever reassembles a payload or emits it to the translator. -/
theorem claim_c3_chunk_split_reassemble :
    (∀ pid P, ((chunk_payload pid P).map ChunkedPayload.payload_chunk).flatten = P ∧
       (chunk_payload pid P).map ChunkedPayload.chunk_index =
         List.range (chunk_payload pid P).length) ∧
    (∀ (convTak : List Nat → MeshPacket → Option (List Char))
       (convPos convChat : List Nat → Nat → Option (List Char))
       (fr : FromRadio) (st : ClientState),
       (handle_from_radio convTak convPos convChat fr st).1.chunk_reassembly =
         st.chunk_reassembly) := by
  constructor
  · intro pid P
    refine ⟨?_, ?_⟩
    · rw [chunk_payload]
      simp only [List.map_map]
      have hcomp :
          (ChunkedPayload.payload_chunk ∘ fun ic : Nat × List Nat =>
            ({ payload_id := pid,
               chunk_count := (P.length + (MAX_DATA_SIZE - 20) - 1) /
                 (MAX_DATA_SIZE - 20),
               chunk_index := ic.1, payload_chunk := ic.2 } : ChunkedPayload)) =
            Prod.snd := rfl
      rw [hcomp, List.enum_map_snd]
      exact chunks_go_join (by decide) P.length P (le_refl _)
    · rw [chunk_payload]
      simp only [List.map_map, List.length_map, List.enum_length]
      have hcomp :
          (ChunkedPayload.chunk_index ∘ fun ic : Nat × List Nat =>
            ({ payload_id := pid,
               chunk_count := (P.length + (MAX_DATA_SIZE - 20) - 1) /
                 (MAX_DATA_SIZE - 20),
               chunk_index := ic.1, payload_chunk := ic.2 } : ChunkedPayload)) =
            Prod.fst := rfl
      rw [hcomp, List.enum_map_fst]
  · intro convTak convPos convChat fr st
    obtain ⟨pv⟩ := fr
    rcases pv with _ | v
    · rfl
    rcases v with p | _
    · obtain ⟨fn, pv2⟩ := p
      rcases pv2 with _ | mv
      · rfl
      rcases mv with d | _
      · simp only [handle_from_radio]
        by_cases hport1 : d.portnum = PortNum.atakForwarder ∨
            d.portnum = PortNum.atakPlugin
        · rw [if_pos hport1]
          cases convTak d.payload ⟨fn, some (MeshPayloadVariant.decoded d)⟩ <;>
            rfl
        · rw [if_neg hport1]
          by_cases hport2 : d.portnum = PortNum.positionApp
          · rw [if_pos hport2]
            cases convPos d.payload fn <;> rfl
          · rw [if_neg hport2]
            by_cases hport3 : d.portnum = PortNum.textMessageApp
            · rw [if_pos hport3]
              cases convChat d.payload fn <;> rfl
            · rw [if_neg hport3]
      · rfl
    · rfl

/-! ## Theorems: CoT codec -/

theorem noMatchIn_attrVal2 {nm v r : List Char} (hnm : '"' ∉ nm)
    (hv : ∀ c ∈ v, c ≠ '"' ∧ c ≠ '=') (hr : r.head? = some '"') :
    NoMatchIn (nm ++ eqQuote) v r := by
  cases r with
  | nil => simp at hr
  | cons c r' =>
    simp only [List.head?, Option.some.injEq] at hr
    subst hr
    exact noMatchIn_attrVal hnm hv

theorem metaFree_noEq_cond {v : List Char} (h1 : metaFree v) (h2 : noEq v) :
    ∀ c ∈ v, c ≠ '"' ∧ c ≠ '=' :=
  fun c hc => ⟨(h1 c hc).2.2.2, h2 c hc⟩

theorem timeStrOK_cond {v : List Char} (h : timeStrOK v) :
    ∀ c ∈ v, c ≠ '"' ∧ c ≠ '=' :=
  fun c hc => ⟨(h c hc).1, (h c hc).2.1⟩

theorem numStrOK_cond {v : List Char} (h : numStrOK v) :
    ∀ c ∈ v, c ≠ '"' ∧ c ≠ '=' :=
  fun c hc => ⟨(h c hc).1, (h c hc).2.1⟩

theorem metaFree_not_lt {v : List Char} (h : metaFree v) : '<' ∉ v :=
  fun hm => (h _ hm).1 rfl

theorem timeStrOK_not_lt {v : List Char} (h : timeStrOK v) : '<' ∉ v :=
  fun hm => (h _ hm).2.2 rfl

theorem numStrOK_not_lt {v : List Char} (h : numStrOK v) : '<' ∉ v :=
  fun hm => (h _ hm).2.2.1 rfl

theorem numStrOK_not_slash {v : List Char} (h : numStrOK v) : '/' ∉ v :=
  fun hm => (h _ hm).2.2.2 rfl

/-- C9 (amended).  When the event XML has no `how` attribute (the
pattern `how="` does not occur in it) and `from_xml` succeeds, the
resulting message's `how` is the decode-side default `"h-e"` — not
`"m-g"` (the `"m-g"` default belongs to the constructor
`CotMessage::new`, while `from_xml` uses `unwrap_or_else(|_| "h-e")`). -/
theorem claim_c9_default_how {T F : Type} (parseT : List Char → Option T)
    (parseF : List Char → Option F) (xml : List Char) (m : CotMessage T F)
    (hnone : findSub (howName ++ eqQuote) xml = none)
    (hok : from_xml parseT parseF xml = some m) :
    m.how = heDefault := by
  have hextr : extract_attribute xml howName = none := by
    rw [extract_attribute, hnone]
  rw [from_xml, hextr] at hok
  simp only [Option.getD_none] at hok
  repeat' split at hok
  all_goals try exact Option.noConfusion hok
  injection hok with h1
  rw [← h1]

set_option maxRecDepth 40000 in
theorem claim_c9_default_how_witness :
    from_xml (fun s : List Char => some s) (fun s : List Char => some s)
      (("<?xml version=\"1.0\" encoding=\"UTF-8\"?><event version=\"2.0\" uid=\"u1\" type=\"a-f\" time=\"T1\" start=\"T2\" stale=\"T3\"><point lat=\"1\" lon=\"2\" hae=\"3\" ce=\"4\" le=\"5\"/></event>").data) =
      some { uid := ("u1").data, event_type := ("a-f").data,
             how := heDefault, time := ("T1").data, start := ("T2").data,
             stale := ("T3").data,
             point := { lat := ("1").data, lon := ("2").data,
                        hae := ("3").data, ce := ("4").data, le := ("5").data },
             detail := none } ∧
    ({ uid := ("u1").data, event_type := ("a-f").data,
       how := heDefault, time := ("T1").data, start := ("T2").data,
       stale := ("T3").data,
       point := { lat := ("1").data, lon := ("2").data,
                  hae := ("3").data, ce := ("4").data, le := ("5").data },
       detail := none } : CotMessage (List Char) (List Char)).how =
      heDefault :=
  ⟨by rfl,
   claim_c9_default_how (fun s : List Char => some s)
     (fun s : List Char => some s)
     (("<?xml version=\"1.0\" encoding=\"UTF-8\"?><event version=\"2.0\" uid=\"u1\" type=\"a-f\" time=\"T1\" start=\"T2\" stale=\"T3\"><point lat=\"1\" lon=\"2\" hae=\"3\" ce=\"4\" le=\"5\"/></event>").data)
     { uid := ("u1").data, event_type := ("a-f").data,
       how := heDefault, time := ("T1").data, start := ("T2").data,
       stale := ("T3").data,
       point := { lat := ("1").data, lon := ("2").data,
                  hae := ("3").data, ce := ("4").data, le := ("5").data },
       detail := none } (by rfl) (by rfl)⟩

set_option maxRecDepth 40000 in
/-- C9 counterexample: an event XML that is well-formed except for the
missing `how` attribute decodes successfully, but its `how` field is
`"h-e"`, which differs from the claimed default `"m-g"`. -/
theorem claim_c9_counterexample :
    (from_xml (fun s : List Char => some s) (fun s : List Char => some s)
      (("<?xml version=\"1.0\" encoding=\"UTF-8\"?><event version=\"2.0\" uid=\"u1\" type=\"a-f\" time=\"T1\" start=\"T2\" stale=\"T3\"><point lat=\"1\" lon=\"2\" hae=\"3\" ce=\"4\" le=\"5\"/></event>").data)).map
        CotMessage.how = some heDefault ∧
    heDefault ≠ ("m-g").data := by
  constructor
  · rfl
  · decide

theorem metaFree_not_quote {v : List Char} (h : metaFree v) : '"' ∉ v :=
  fun hm => (h _ hm).2.2.2 rfl

theorem noMatchIn_nil {p r : List Char} : NoMatchIn p [] r := by
  intro l1 l2 hsplit hne _
  cases l1 with
  | nil => exact hne hsplit.symm
  | cons c t => simp at hsplit

theorem timeStrOK_not_quote {v : List Char} (h : timeStrOK v) : '"' ∉ v :=
  fun hm => (h _ hm).1 rfl

theorem numStrOK_not_quote {v : List Char} (h : numStrOK v) : '"' ∉ v :=
  fun hm => (h _ hm).1 rfl

set_option maxHeartbeats 3200000 in
/-- C1 (amended).  CoT round-trip: for every event built from valid
inputs — `uid`, `event_type`, `how` free of the XML metacharacters AND
of `'='`, `detail` free of XML metacharacters, time fields serialized
by an RFC-3339 millisecond formatter that the parser inverts, point
fields serialized by a float formatter that the parser inverts —
`from_xml (to_xml E)` succeeds and equals `E` field by field: `uid`,
`event_type` and `how` as strings, `time`/`start`/`stale` through the
millisecond formatter round-trip, all five point fields through the
float round-trip, and `detail` as a raw string (`None` preserved as
`None`).  The `'='`-freedom is the amendment: a value ending in e.g.
`type=` followed by its closing quote forges an earlier `type="` match
for the substring-searching parser (see the counterexample). -/
theorem claim_c1_round_trip {T F : Type}
    (fmtT : T → List Char) (parseT : List Char → Option T)
    (fmtF : F → List Char) (parseF : List Char → Option F)
    (m : CotMessage T F)
    (hT : ∀ x, parseT (fmtT x) = some x)
    (hF : ∀ x, parseF (fmtF x) = some x)
    (hTs : ∀ x, timeStrOK (fmtT x))
    (hFs : ∀ x, numStrOK (fmtF x))
    (hu : metaFree m.uid) (hu2 : noEq m.uid)
    (hty : metaFree m.event_type) (hty2 : noEq m.event_type)
    (hh : metaFree m.how) (hh2 : noEq m.how)
    (hd : ∀ d, m.detail = some d → metaFree d) :
    from_xml parseT parseF (to_xml fmtT fmtF m) = some m := by
  obtain ⟨u, ty, hw, ti, st, sl, pt, dt⟩ := m
  obtain ⟨la, lo, ha, ce, le⟩ := pt
  simp only at hu hu2 hty hty2 hh hh2 hd
  set dpart := (match dt with
    | some d => detailOpen ++ (d ++ detailClose)
    | none => ([] : List Char)) with hdp
  set U5 := (leName ++ eqQuote) ++ (fmtF le ++ ('"' :: (slashGt ++ (dpart ++ eventClose)))) with hU5
  set U4 := (ceName ++ eqQuote) ++ (fmtF ce ++ ('"' :: (' ' :: U5))) with hU4
  set U3 := (haeName ++ eqQuote) ++ (fmtF ha ++ ('"' :: (' ' :: U4))) with hU3
  set U2 := (lonName ++ eqQuote) ++ (fmtF lo ++ ('"' :: (' ' :: U3))) with hU2
  set U1 := (latName ++ eqQuote) ++ (fmtF la ++ ('"' :: (' ' :: U2))) with hU1
  set T6 := '>' :: (pointTag ++ (' ' :: U1)) with hT6
  set T5 := (staleName ++ eqQuote) ++ (fmtT sl ++ ('"' :: T6)) with hT5
  set T4 := (startName ++ eqQuote) ++ (fmtT st ++ ('"' :: (' ' :: T5))) with hT4
  set T3 := (timeName ++ eqQuote) ++ (fmtT ti ++ ('"' :: (' ' :: T4))) with hT3
  set T2 := (howName ++ eqQuote) ++ (hw ++ ('"' :: (' ' :: T3))) with hT2
  set T1 := (typeName ++ eqQuote) ++ (ty ++ ('"' :: (' ' :: T2))) with hT1
  have hxml : to_xml fmtT fmtF ⟨u, ty, hw, ti, st, sl, ⟨la, lo, ha, ce, le⟩, dt⟩ =
      xmlHead ++ ((uidName ++ eqQuote) ++ (u ++ ('"' :: (' ' :: T1)))) := by
    rw [hT1, hT2, hT3, hT4, hT5, hT6, hU1, hU2, hU3, hU4, hU5]
    simp only [to_xml, qSp, pointHead, pointClose, List.append_assoc,
      List.cons_append, List.nil_append, List.singleton_append, ← hdp]
  rw [hxml]
  set xx := xmlHead ++ ((uidName ++ eqQuote) ++ (u ++ ('"' :: (' ' :: T1)))) with hxx
  have h_uid : extract_attribute xx uidName = some u := by
    refine extract_attribute_eq (xmlHead) (' ' :: T1) ?_ ?_
      (metaFree_not_quote hu)
    · rw [hxx]
    · exact noMatchIn_of_scanOKb (by decide) _
  have h_ty : extract_attribute xx typeName = some ty := by
    refine extract_attribute_eq
      (xmlHead ++ (uidName ++ eqQuote) ++ u ++ qSp)
      (' ' :: T2) ?_ ?_ (metaFree_not_quote hty)
    · rw [hxx, hT1]
      simp only [qSp, List.append_assoc, List.cons_append, List.nil_append]
    · repeat' apply noMatchIn_append
      all_goals first
        | exact noMatchIn_of_scanOKb (by decide) _
        | exact noMatchIn_attrVal2 (by decide) (metaFree_noEq_cond hu hu2) rfl
  have h_how : extract_attribute xx howName = some hw := by
    refine extract_attribute_eq
      (xmlHead ++ (uidName ++ eqQuote) ++ u ++ qSp ++
        (typeName ++ eqQuote) ++ ty ++ qSp)
      (' ' :: T3) ?_ ?_ (metaFree_not_quote hh)
    · rw [hxx, hT1, hT2]
      simp only [qSp, List.append_assoc, List.cons_append, List.nil_append]
    · repeat' apply noMatchIn_append
      all_goals first
        | exact noMatchIn_of_scanOKb (by decide) _
        | exact noMatchIn_attrVal2 (by decide) (metaFree_noEq_cond hu hu2) rfl
        | exact noMatchIn_attrVal2 (by decide) (metaFree_noEq_cond hty hty2) rfl
  have h_time : extract_attribute xx timeName = some (fmtT ti) := by
    refine extract_attribute_eq
      (xmlHead ++ (uidName ++ eqQuote) ++ u ++ qSp ++
        (typeName ++ eqQuote) ++ ty ++ qSp ++ (howName ++ eqQuote) ++ hw ++ qSp)
      (' ' :: T4) ?_ ?_ ((timeStrOK_not_quote (hTs ti)))
    · rw [hxx, hT1, hT2, hT3]
      simp only [qSp, List.append_assoc, List.cons_append, List.nil_append]
    · repeat' apply noMatchIn_append
      all_goals first
        | exact noMatchIn_of_scanOKb (by decide) _
        | exact noMatchIn_attrVal2 (by decide) (metaFree_noEq_cond hu hu2) rfl
        | exact noMatchIn_attrVal2 (by decide) (metaFree_noEq_cond hty hty2) rfl
        | exact noMatchIn_attrVal2 (by decide) (metaFree_noEq_cond hh hh2) rfl
  have h_start : extract_attribute xx startName = some (fmtT st) := by
    refine extract_attribute_eq
      (xmlHead ++ (uidName ++ eqQuote) ++ u ++ qSp ++
        (typeName ++ eqQuote) ++ ty ++ qSp ++ (howName ++ eqQuote) ++ hw ++
        qSp ++ (timeName ++ eqQuote) ++ fmtT ti ++ qSp)
      (' ' :: T5) ?_ ?_ ((timeStrOK_not_quote (hTs st)))
    · rw [hxx, hT1, hT2, hT3, hT4]
      simp only [qSp, List.append_assoc, List.cons_append, List.nil_append]
    · repeat' apply noMatchIn_append
      all_goals first
        | exact noMatchIn_of_scanOKb (by decide) _
        | exact noMatchIn_attrVal2 (by decide) (metaFree_noEq_cond hu hu2) rfl
        | exact noMatchIn_attrVal2 (by decide) (metaFree_noEq_cond hty hty2) rfl
        | exact noMatchIn_attrVal2 (by decide) (metaFree_noEq_cond hh hh2) rfl
        | exact noMatchIn_attrVal2 (by decide) (timeStrOK_cond (hTs ti)) rfl
  have h_stale : extract_attribute xx staleName = some (fmtT sl) := by
    refine extract_attribute_eq
      (xmlHead ++ (uidName ++ eqQuote) ++ u ++ qSp ++
        (typeName ++ eqQuote) ++ ty ++ qSp ++ (howName ++ eqQuote) ++ hw ++
        qSp ++ (timeName ++ eqQuote) ++ fmtT ti ++ qSp ++
        (startName ++ eqQuote) ++ fmtT st ++ qSp)
      (T6) ?_ ?_ ((timeStrOK_not_quote (hTs sl)))
    · rw [hxx, hT1, hT2, hT3, hT4, hT5]
      simp only [qSp, List.append_assoc, List.cons_append, List.nil_append]
    · repeat' apply noMatchIn_append
      all_goals first
        | exact noMatchIn_of_scanOKb (by decide) _
        | exact noMatchIn_attrVal2 (by decide) (metaFree_noEq_cond hu hu2) rfl
        | exact noMatchIn_attrVal2 (by decide) (metaFree_noEq_cond hty hty2) rfl
        | exact noMatchIn_attrVal2 (by decide) (metaFree_noEq_cond hh hh2) rfl
        | exact noMatchIn_attrVal2 (by decide) (timeStrOK_cond (hTs ti)) rfl
        | exact noMatchIn_attrVal2 (by decide) (timeStrOK_cond (hTs st)) rfl
  set PREP := xmlHead ++ (uidName ++ eqQuote) ++ u ++ qSp ++
    (typeName ++ eqQuote) ++ ty ++ qSp ++ (howName ++ eqQuote) ++ hw ++ qSp ++
    (timeName ++ eqQuote) ++ fmtT ti ++ qSp ++ (startName ++ eqQuote) ++
    fmtT st ++ qSp ++ (staleName ++ eqQuote) ++ fmtT sl ++ ['"', '>']
    with hPREP
  have hxp : xx = PREP ++ pointTag ++ (' ' :: U1) := by
    rw [hxx, hT1, hT2, hT3, hT4, hT5, hT6, hPREP]
    simp only [qSp, List.append_assoc, List.cons_append, List.nil_append]
  have hnp : NoMatchIn pointTag PREP (pointTag ++ (' ' :: U1)) := by
    rw [hPREP]
    repeat' apply noMatchIn_append
    all_goals first
      | exact noMatchIn_of_scanOKb (by decide) _
      | exact noMatchIn_head rfl (metaFree_not_lt hu)
      | exact noMatchIn_head rfl (metaFree_not_lt hty)
      | exact noMatchIn_head rfl (metaFree_not_lt hh)
      | exact noMatchIn_head rfl (timeStrOK_not_lt (hTs ti))
      | exact noMatchIn_head rfl (timeStrOK_not_lt (hTs st))
      | exact noMatchIn_head rfl (timeStrOK_not_lt (hTs sl))
  have hfp : findSub pointTag xx = some PREP.length := by
    rw [hxp]
    exact findSub_decomp (by decide) hnp
  have hsect : xx.drop PREP.length = pointTag ++ (' ' :: U1) := by
    rw [hxp, List.append_assoc]
    exact List.drop_left PREP (pointTag ++ (' ' :: U1))
  set SECT := pointTag ++ [' '] ++ (latName ++ eqQuote) ++ fmtF la ++ qSp ++
    (lonName ++ eqQuote) ++ fmtF lo ++ qSp ++ (haeName ++ eqQuote) ++
    fmtF ha ++ qSp ++ (ceName ++ eqQuote) ++ fmtF ce ++ qSp ++
    (leName ++ eqQuote) ++ fmtF le ++ ['"'] with hSECT
  have hsplit2 : pointTag ++ (' ' :: U1) =
      SECT ++ slashGt ++ (dpart ++ eventClose) := by
    rw [hSECT, hU1, hU2, hU3, hU4, hU5]
    simp only [qSp, List.append_assoc, List.cons_append, List.nil_append]
  have hnsg : NoMatchIn slashGt SECT (slashGt ++ (dpart ++ eventClose)) := by
    rw [hSECT]
    repeat' apply noMatchIn_append
    all_goals first
      | exact noMatchIn_of_scanOKb (by decide) _
      | exact noMatchIn_head rfl (numStrOK_not_slash (hFs la))
      | exact noMatchIn_head rfl (numStrOK_not_slash (hFs lo))
      | exact noMatchIn_head rfl (numStrOK_not_slash (hFs ha))
      | exact noMatchIn_head rfl (numStrOK_not_slash (hFs ce))
      | exact noMatchIn_head rfl (numStrOK_not_slash (hFs le))
  have hfs : findSub slashGt (pointTag ++ (' ' :: U1)) = some SECT.length := by
    rw [hsplit2]
    exact findSub_decomp (by decide) hnsg
  have htk : (pointTag ++ (' ' :: U1)).take SECT.length = SECT := by
    rw [hsplit2, List.append_assoc]
    exact List.take_left SECT (slashGt ++ (dpart ++ eventClose))
  set W5 := (leName ++ eqQuote) ++ (fmtF le ++ ('"' :: ([] : List Char)))
    with hW5
  set W4 := (ceName ++ eqQuote) ++ (fmtF ce ++ ('"' :: (' ' :: W5))) with hW4
  set W3 := (haeName ++ eqQuote) ++ (fmtF ha ++ ('"' :: (' ' :: W4))) with hW3
  set W2 := (lonName ++ eqQuote) ++ (fmtF lo ++ ('"' :: (' ' :: W3))) with hW2
  have h_lat : extract_attribute SECT latName = some (fmtF la) := by
    refine extract_attribute_eq (pointTag ++ [' '])
      (' ' :: W2) ?_ ?_ (numStrOK_not_quote (hFs la))
    · rw [hSECT, hW2, hW3, hW4, hW5]
      simp only [qSp, List.append_assoc, List.cons_append, List.nil_append]
    · repeat' apply noMatchIn_append
      all_goals exact noMatchIn_of_scanOKb (by decide) _
  have h_lon : extract_attribute SECT lonName = some (fmtF lo) := by
    refine extract_attribute_eq
      (pointTag ++ [' '] ++ (latName ++ eqQuote) ++ fmtF la ++ qSp)
      (' ' :: W3) ?_ ?_ (numStrOK_not_quote (hFs lo))
    · rw [hSECT, hW3, hW4, hW5]
      simp only [qSp, List.append_assoc, List.cons_append, List.nil_append]
    · repeat' apply noMatchIn_append
      all_goals first
        | exact noMatchIn_of_scanOKb (by decide) _
        | exact noMatchIn_attrVal2 (by decide) (numStrOK_cond (hFs la)) rfl
  have h_hae : extract_attribute SECT haeName = some (fmtF ha) := by
    refine extract_attribute_eq
      (pointTag ++ [' '] ++ (latName ++ eqQuote) ++ fmtF la ++ qSp ++
        (lonName ++ eqQuote) ++ fmtF lo ++ qSp)
      (' ' :: W4) ?_ ?_ (numStrOK_not_quote (hFs ha))
    · rw [hSECT, hW4, hW5]
      simp only [qSp, List.append_assoc, List.cons_append, List.nil_append]
    · repeat' apply noMatchIn_append
      all_goals first
        | exact noMatchIn_of_scanOKb (by decide) _
        | exact noMatchIn_attrVal2 (by decide) (numStrOK_cond (hFs la)) rfl
        | exact noMatchIn_attrVal2 (by decide) (numStrOK_cond (hFs lo)) rfl
  have h_ce : extract_attribute SECT ceName = some (fmtF ce) := by
    refine extract_attribute_eq
      (pointTag ++ [' '] ++ (latName ++ eqQuote) ++ fmtF la ++ qSp ++
        (lonName ++ eqQuote) ++ fmtF lo ++ qSp ++ (haeName ++ eqQuote) ++
        fmtF ha ++ qSp)
      (' ' :: W5) ?_ ?_ (numStrOK_not_quote (hFs ce))
    · rw [hSECT, hW5]
      simp only [qSp, List.append_assoc, List.cons_append, List.nil_append]
    · repeat' apply noMatchIn_append
      all_goals first
        | exact noMatchIn_of_scanOKb (by decide) _
        | exact noMatchIn_attrVal2 (by decide) (numStrOK_cond (hFs la)) rfl
        | exact noMatchIn_attrVal2 (by decide) (numStrOK_cond (hFs lo)) rfl
        | exact noMatchIn_attrVal2 (by decide) (numStrOK_cond (hFs ha)) rfl
  have h_le : extract_attribute SECT leName = some (fmtF le) := by
    refine extract_attribute_eq
      (pointTag ++ [' '] ++ (latName ++ eqQuote) ++ fmtF la ++ qSp ++
        (lonName ++ eqQuote) ++ fmtF lo ++ qSp ++ (haeName ++ eqQuote) ++
        fmtF ha ++ qSp ++ (ceName ++ eqQuote) ++ fmtF ce ++ qSp)
      (([] : List Char)) ?_ ?_ (numStrOK_not_quote (hFs le))
    · rw [hSECT]
      simp only [qSp, List.append_assoc, List.cons_append, List.nil_append]
    · repeat' apply noMatchIn_append
      all_goals first
        | exact noMatchIn_of_scanOKb (by decide) _
        | exact noMatchIn_attrVal2 (by decide) (numStrOK_cond (hFs la)) rfl
        | exact noMatchIn_attrVal2 (by decide) (numStrOK_cond (hFs lo)) rfl
        | exact noMatchIn_attrVal2 (by decide) (numStrOK_cond (hFs ha)) rfl
        | exact noMatchIn_attrVal2 (by decide) (numStrOK_cond (hFs ce)) rfl
  have h_plat : extract_point_attribute xx latName = some (fmtF la) := by
    rw [extract_point_attribute, hfp]
    simp only [hsect, hfs, htk, h_lat]
  have h_plon : extract_point_attribute xx lonName = some (fmtF lo) := by
    rw [extract_point_attribute, hfp]
    simp only [hsect, hfs, htk, h_lon]
  have h_phae : extract_point_attribute xx haeName = some (fmtF ha) := by
    rw [extract_point_attribute, hfp]
    simp only [hsect, hfs, htk, h_hae]
  have h_pce : extract_point_attribute xx ceName = some (fmtF ce) := by
    rw [extract_point_attribute, hfp]
    simp only [hsect, hfs, htk, h_ce]
  have h_ple : extract_point_attribute xx leName = some (fmtF le) := by
    rw [extract_point_attribute, hfp]
    simp only [hsect, hfs, htk, h_le]
  have hxd : xx = (PREP ++ SECT ++ slashGt) ++ (dpart ++ eventClose) := by
    rw [hxp, List.append_assoc, hsplit2]
    simp only [List.append_assoc]
  have hdet : extract_detail xx = dt := by
    rcases dt with _ | d
    · have hdn : dpart = ([] : List Char) := hdp
      have hnone : findSub detailOpen xx = none := by
        refine findSub_none (by decide) ?_
        rw [hxd, hdn, hPREP, hSECT]
        repeat' apply noMatchIn_append
        all_goals first
          | exact noMatchIn_nil
          | exact noMatchIn_of_scanOKb (by decide) _
          | exact noMatchIn_head rfl (metaFree_not_lt hu)
          | exact noMatchIn_head rfl (metaFree_not_lt hty)
          | exact noMatchIn_head rfl (metaFree_not_lt hh)
          | exact noMatchIn_head rfl (timeStrOK_not_lt (hTs ti))
          | exact noMatchIn_head rfl (timeStrOK_not_lt (hTs st))
          | exact noMatchIn_head rfl (timeStrOK_not_lt (hTs sl))
          | exact noMatchIn_head rfl (numStrOK_not_lt (hFs la))
          | exact noMatchIn_head rfl (numStrOK_not_lt (hFs lo))
          | exact noMatchIn_head rfl (numStrOK_not_lt (hFs ha))
          | exact noMatchIn_head rfl (numStrOK_not_lt (hFs ce))
          | exact noMatchIn_head rfl (numStrOK_not_lt (hFs le))
      rw [extract_detail, hnone]
    · have hdd : dpart = detailOpen ++ (d ++ detailClose) := hdp
      have hx1 : xx = (PREP ++ SECT ++ slashGt) ++ detailOpen ++
          (d ++ (detailClose ++ eventClose)) := by
        rw [hxd, hdd]
        simp only [List.append_assoc]
      have hnd1 : NoMatchIn detailOpen (PREP ++ SECT ++ slashGt)
          (detailOpen ++ (d ++ (detailClose ++ eventClose))) := by
        rw [hPREP, hSECT]
        repeat' apply noMatchIn_append
        all_goals first
          | exact noMatchIn_of_scanOKb (by decide) _
          | exact noMatchIn_head rfl (metaFree_not_lt hu)
          | exact noMatchIn_head rfl (metaFree_not_lt hty)
          | exact noMatchIn_head rfl (metaFree_not_lt hh)
          | exact noMatchIn_head rfl (timeStrOK_not_lt (hTs ti))
          | exact noMatchIn_head rfl (timeStrOK_not_lt (hTs st))
          | exact noMatchIn_head rfl (timeStrOK_not_lt (hTs sl))
          | exact noMatchIn_head rfl (numStrOK_not_lt (hFs la))
          | exact noMatchIn_head rfl (numStrOK_not_lt (hFs lo))
          | exact noMatchIn_head rfl (numStrOK_not_lt (hFs ha))
          | exact noMatchIn_head rfl (numStrOK_not_lt (hFs ce))
          | exact noMatchIn_head rfl (numStrOK_not_lt (hFs le))
      have hfd1 : findSub detailOpen xx =
          some (PREP ++ SECT ++ slashGt).length := by
        rw [hx1]
        exact findSub_decomp (by decide) hnd1
      have hx2 : xx = ((PREP ++ SECT ++ slashGt) ++ detailOpen ++ d) ++
          detailClose ++ eventClose := by
        rw [hx1]
        simp only [List.append_assoc]
      have hnd2 : NoMatchIn detailClose
          ((PREP ++ SECT ++ slashGt) ++ detailOpen ++ d)
          (detailClose ++ eventClose) := by
        rw [hPREP, hSECT]
        repeat' apply noMatchIn_append
        all_goals first
          | exact noMatchIn_of_scanOKb (by decide) _
          | exact noMatchIn_head rfl (metaFree_not_lt hu)
          | exact noMatchIn_head rfl (metaFree_not_lt hty)
          | exact noMatchIn_head rfl (metaFree_not_lt hh)
          | exact noMatchIn_head rfl (timeStrOK_not_lt (hTs ti))
          | exact noMatchIn_head rfl (timeStrOK_not_lt (hTs st))
          | exact noMatchIn_head rfl (timeStrOK_not_lt (hTs sl))
          | exact noMatchIn_head rfl (numStrOK_not_lt (hFs la))
          | exact noMatchIn_head rfl (numStrOK_not_lt (hFs lo))
          | exact noMatchIn_head rfl (numStrOK_not_lt (hFs ha))
          | exact noMatchIn_head rfl (numStrOK_not_lt (hFs ce))
          | exact noMatchIn_head rfl (numStrOK_not_lt (hFs le))
          | exact noMatchIn_head rfl (metaFree_not_lt (hd d rfl))
      have hfd2 : findSub detailClose xx =
          some ((PREP ++ SECT ++ slashGt) ++ detailOpen ++ d).length := by
        rw [hx2]
        exact findSub_decomp (by decide) hnd2
      have hx2b : xx = ((PREP ++ SECT ++ slashGt) ++ detailOpen ++ d) ++
          (detailClose ++ eventClose) := by
        rw [hx1]
        simp only [List.append_assoc]
      have htk2 : xx.take ((PREP ++ SECT ++ slashGt) ++ detailOpen ++
          d).length = (PREP ++ SECT ++ slashGt) ++ detailOpen ++ d := by
        rw [hx2b]
        exact List.take_left _ _
      have hdr : ((PREP ++ SECT ++ slashGt) ++ detailOpen ++ d).drop
          ((PREP ++ SECT ++ slashGt).length + 8) = d := by
        refine List.drop_left' ?_
        rw [List.length_append]
        rfl
      rw [extract_detail]
      simp only [hfd1, hfd2]
      rw [htk2, hdr]
  rw [from_xml]
  simp only [h_uid, h_ty, h_how, h_time, h_start, h_stale, h_plat, h_plon,
    h_phae, h_pce, h_ple, hdet, Option.some_bind, Option.getD_some, hT, hF]

theorem claim_c1_round_trip_witness :
    from_xml (fun _ : List Char => some ()) (fun _ : List Char => some ())
      (to_xml (fun _ : Unit => ("1").data) (fun _ : Unit => ("2").data)
        { uid := ("u-1").data, event_type := ("a-f-G").data,
          how := ("m-g").data, time := (), start := (), stale := (),
          point := { lat := (), lon := (), hae := (), ce := (), le := () },
          detail := some (("hello").data) }) =
      some { uid := ("u-1").data, event_type := ("a-f-G").data,
             how := ("m-g").data, time := (), start := (), stale := (),
             point := { lat := (), lon := (), hae := (), ce := (), le := () },
             detail := some (("hello").data) } :=
  claim_c1_round_trip (fun _ : Unit => ("1").data)
    (fun _ : List Char => some ()) (fun _ : Unit => ("2").data)
    (fun _ : List Char => some ())
    { uid := ("u-1").data, event_type := ("a-f-G").data,
      how := ("m-g").data, time := (), start := (), stale := (),
      point := { lat := (), lon := (), hae := (), ce := (), le := () },
      detail := some (("hello").data) }
    (fun x => rfl) (fun x => rfl)
    (fun x => show timeStrOK (("1").data) by decide)
    (fun x => show numStrOK (("2").data) by decide)
    (by decide) (by decide) (by decide) (by decide) (by decide) (by decide)
    (fun d hdd => by
      injection hdd with h1
      rw [← h1]
      decide)

set_option maxRecDepth 40000 in
/-- C1 counterexample: the event with `uid = "type="` is built from
valid inputs in the claim's sense — every field is free of XML
metacharacters (`=` is not one) and the point/time formatters are
inverted by their parsers — yet the round trip does not restore it:
the `uid` value `type=` followed by its closing quote is the FIRST
occurrence of the pattern `type="` in the serialized document, so
`from_xml` returns `" type="` as the event type instead of `"a"`. -/
theorem claim_c1_counterexample :
    metaFree (("type=").data) ∧
    (from_xml (fun _ : List Char => some ()) (fun _ : List Char => some ())
      (to_xml (fun _ : Unit => ("1").data) (fun _ : Unit => ("2").data)
        { uid := ("type=").data, event_type := ("a").data,
          how := ("m").data, time := (), start := (), stale := (),
          point := { lat := (), lon := (), hae := (), ce := (), le := () },
          detail := none })).map CotMessage.event_type =
      some ((" type=").data) ∧
    from_xml (fun _ : List Char => some ()) (fun _ : List Char => some ())
      (to_xml (fun _ : Unit => ("1").data) (fun _ : Unit => ("2").data)
        { uid := ("type=").data, event_type := ("a").data,
          how := ("m").data, time := (), start := (), stale := (),
          point := { lat := (), lon := (), hae := (), ce := (), le := () },
          detail := none }) ≠
      some { uid := ("type=").data, event_type := ("a").data,
             how := ("m").data, time := (), start := (), stale := (),
             point := { lat := (), lon := (), hae := (), ce := (), le := () },
             detail := none } := by
  refine ⟨by decide, by rfl, by decide⟩
